import Mathlib

/-!
Shallow embedding of the pixel-canvas 2D compositing engine.

Conventions of the embedding:
- f32 values are modeled as exact rationals.  The trigonometric functions
  used by the rotation matrix and the degree-to-radian conversion are not
  rational, so they are threaded through as explicit function parameters
  cosF, sinF and torad; every statement is universally quantified over them.
- Rust u8 bytes are modeled as natural numbers; the saturating truncating
  f32-to-u8 cast is rust_cast_u8.  The f32-to-u32 cast applied to a value
  already checked to be nonnegative is floor followed by toNat.
- Buffers are lists of bytes.  Rust indexed reads are modeled by getD with
  default 0 and writes by List.set (reads and writes in the code are only
  performed at indices proven in range, where the two semantics agree).
- Stateful methods (the matrix cache, render_to) are modeled by explicit
  state passing: they return the result together with the updated value.
- The process-wide sprite id counter is modeled by passing the fresh id
  explicitly to the constructors.
- Vec sort_by_key in Rust is a stable ascending sort by key; every stable
  ascending sort produces the same list, so it is modeled by insertion sort.
-/

/-- 2D vector with rational coordinates, embedding Vec2 from math/vec2.rs. -/
structure Vec2 where
  x : ℚ
  y : ℚ
deriving DecidableEq

def Vec2.zero : Vec2 := ⟨0, 0⟩

def Vec2.one : Vec2 := ⟨1, 1⟩

/-- Row-major 3x3 matrix, embedding Matrix3x3 from math/matrix.rs.
The nine fields m0..m8 are the entries data[0]..data[8] of the source. -/
structure Matrix3x3 where
  m0 : ℚ
  m1 : ℚ
  m2 : ℚ
  m3 : ℚ
  m4 : ℚ
  m5 : ℚ
  m6 : ℚ
  m7 : ℚ
  m8 : ℚ
deriving DecidableEq

def Matrix3x3.identity : Matrix3x3 := ⟨1, 0, 0, 0, 1, 0, 0, 0, 1⟩

def Matrix3x3.determinant (m : Matrix3x3) : ℚ :=
  m.m0 * (m.m4 * m.m8 - m.m5 * m.m7) - m.m1 * (m.m3 * m.m8 - m.m5 * m.m6)
    + m.m2 * (m.m3 * m.m7 - m.m4 * m.m6)

/-- Matrix inverse; fails when the absolute determinant is below the 1e-10
threshold of the source. -/
def Matrix3x3.inverse (m : Matrix3x3) : Option Matrix3x3 :=
  let det := m.determinant
  if |det| < 1 / 10 ^ 10 then none
  else
    let inv_det := 1 / det
    some ⟨(m.m4 * m.m8 - m.m5 * m.m7) * inv_det,
      (m.m2 * m.m7 - m.m1 * m.m8) * inv_det,
      (m.m1 * m.m5 - m.m2 * m.m4) * inv_det,
      (m.m5 * m.m6 - m.m3 * m.m8) * inv_det,
      (m.m0 * m.m8 - m.m2 * m.m6) * inv_det,
      (m.m2 * m.m3 - m.m0 * m.m5) * inv_det,
      (m.m3 * m.m7 - m.m4 * m.m6) * inv_det,
      (m.m1 * m.m6 - m.m0 * m.m7) * inv_det,
      (m.m0 * m.m4 - m.m1 * m.m3) * inv_det⟩

def Matrix3x3.multiply (a b : Matrix3x3) : Matrix3x3 :=
  ⟨a.m0 * b.m0 + a.m1 * b.m3 + a.m2 * b.m6,
    a.m0 * b.m1 + a.m1 * b.m4 + a.m2 * b.m7,
    a.m0 * b.m2 + a.m1 * b.m5 + a.m2 * b.m8,
    a.m3 * b.m0 + a.m4 * b.m3 + a.m5 * b.m6,
    a.m3 * b.m1 + a.m4 * b.m4 + a.m5 * b.m7,
    a.m3 * b.m2 + a.m4 * b.m5 + a.m5 * b.m8,
    a.m6 * b.m0 + a.m7 * b.m3 + a.m8 * b.m6,
    a.m6 * b.m1 + a.m7 * b.m4 + a.m8 * b.m7,
    a.m6 * b.m2 + a.m7 * b.m5 + a.m8 * b.m8⟩

def Matrix3x3.transform_point (m : Matrix3x3) (point : Vec2) : Vec2 :=
  ⟨m.m0 * point.x + m.m1 * point.y + m.m2,
    m.m3 * point.x + m.m4 * point.y + m.m5⟩

def Matrix3x3.translation (tx ty : ℚ) : Matrix3x3 :=
  ⟨1, 0, tx, 0, 1, ty, 0, 0, 1⟩

/-- Rotation matrix; the cosine and sine of the angle are supplied through
the parameters cosF and sinF that abstract the f32 trig functions. -/
def Matrix3x3.rotation (cosF sinF : ℚ → ℚ) (angle : ℚ) : Matrix3x3 :=
  let c := cosF angle
  let s := sinF angle
  ⟨c, -s, 0, s, c, 0, 0, 0, 1⟩

def Matrix3x3.scaling (sx sy : ℚ) : Matrix3x3 :=
  ⟨sx, 0, 0, 0, sy, 0, 0, 0, 1⟩

/-- 2D transform component, embedding Transform2D from math/transform.rs. -/
structure Transform2D where
  position : Vec2
  rotation : ℚ
  scale : Vec2
  anchor : Vec2
  matrix_cache : Option Matrix3x3
deriving DecidableEq

def Transform2D.new : Transform2D :=
  ⟨Vec2.zero, 0, Vec2.one, ⟨1 / 2, 1 / 2⟩, none⟩

def Transform2D.invalidate_cache (t : Transform2D) : Transform2D :=
  { t with matrix_cache := none }

def Transform2D.set_position (t : Transform2D) (x y : ℚ) : Transform2D :=
  Transform2D.invalidate_cache { t with position := ⟨x, y⟩ }

def Transform2D.set_rotation (t : Transform2D) (angle : ℚ) : Transform2D :=
  Transform2D.invalidate_cache { t with rotation := angle }

/-- set_rotation_degrees; torad abstracts the f32 degree-to-radian
conversion of the source. -/
def Transform2D.set_rotation_degrees (torad : ℚ → ℚ) (t : Transform2D)
    (degrees : ℚ) : Transform2D :=
  Transform2D.invalidate_cache { t with rotation := torad degrees }

def Transform2D.set_scale (t : Transform2D) (sx sy : ℚ) : Transform2D :=
  Transform2D.invalidate_cache { t with scale := ⟨sx, sy⟩ }

def Transform2D.set_uniform_scale (t : Transform2D) (s : ℚ) : Transform2D :=
  Transform2D.invalidate_cache { t with scale := ⟨s, s⟩ }

def Transform2D.set_anchor (t : Transform2D) (ax ay : ℚ) : Transform2D :=
  Transform2D.invalidate_cache { t with anchor := ⟨ax, ay⟩ }

def Transform2D.translate (t : Transform2D) (dx dy : ℚ) : Transform2D :=
  Transform2D.invalidate_cache
    { t with position := ⟨t.position.x + dx, t.position.y + dy⟩ }

def Transform2D.rotate (t : Transform2D) (angle : ℚ) : Transform2D :=
  Transform2D.invalidate_cache { t with rotation := t.rotation + angle }

def Transform2D.rotate_degrees (torad : ℚ → ℚ) (t : Transform2D)
    (degrees : ℚ) : Transform2D :=
  Transform2D.invalidate_cache { t with rotation := t.rotation + torad degrees }

def Transform2D.scale_by (t : Transform2D) (sx sy : ℚ) : Transform2D :=
  Transform2D.invalidate_cache
    { t with scale := ⟨t.scale.x * sx, t.scale.y * sy⟩ }

/-- The matrix built on a cache miss: translation times rotation times
scaling, associated exactly as in the source. -/
def Transform2D.computed_matrix (cosF sinF : ℚ → ℚ) (t : Transform2D) :
    Matrix3x3 :=
  ((Matrix3x3.translation t.position.x t.position.y).multiply
      (Matrix3x3.rotation cosF sinF t.rotation)).multiply
    (Matrix3x3.scaling t.scale.x t.scale.y)

/-- The matrix method; returns the matrix and the transform with its
cache updated, modeling the in-place caching of the source. -/
def Transform2D.matrix (cosF sinF : ℚ → ℚ) (t : Transform2D) :
    Matrix3x3 × Transform2D :=
  match t.matrix_cache with
  | some cached => (cached, t)
  | none =>
      let m := t.computed_matrix cosF sinF
      (m, { t with matrix_cache := some m })

def Transform2D.matrix_with_size (cosF sinF : ℚ → ℚ) (t : Transform2D)
    (width height : ℚ) : Matrix3x3 × Transform2D :=
  let anchor_offset :=
    Matrix3x3.translation (-t.anchor.x * width) (-t.anchor.y * height)
  let r := t.matrix cosF sinF
  (r.1.multiply anchor_offset, r.2)

/-- Pixel formats with their channel counts, embedding ImageFormat from
format.rs (discriminants 1, 3, 4). -/
inductive ImageFormat where
  | grayscale
  | rgb
  | rgba
deriving DecidableEq

def ImageFormat.channels : ImageFormat → ℕ
  | .grayscale => 1
  | .rgb => 3
  | .rgba => 4

/-- One RGBA pixel as four bytes. -/
structure Rgba where
  r : ℕ
  g : ℕ
  b : ℕ
  a : ℕ
deriving DecidableEq

/-- Image sprite, embedding ImageSprite from scene/sprite.rs. -/
structure ImageSprite where
  id : ℕ
  buffer : List ℕ
  width : ℕ
  height : ℕ
  format : ImageFormat
  transform : Transform2D
  z_order : ℤ
deriving DecidableEq

/-- ImageSprite::new; the freshly generated id is passed explicitly. -/
def ImageSprite.new (idv : ℕ) (width height : ℕ) (format : ImageFormat) :
    ImageSprite :=
  ⟨idv, List.replicate (width * height * format.channels) 0, width, height,
    format, Transform2D.new, 0⟩

/-- ImageSprite::from_buffer; the freshly generated id is passed
explicitly.  The source stores the given buffer without any check. -/
def ImageSprite.from_buffer (idv : ℕ) (buffer : List ℕ) (width height : ℕ)
    (format : ImageFormat) : ImageSprite :=
  ⟨idv, buffer, width, height, format, Transform2D.new, 0⟩

/-- Read of a buffer byte; in-range reads agree with the Rust indexing. -/
def byte_at (l : List ℕ) (i : ℕ) : ℕ := l.getD i 0

def ImageSprite.get_pixel_rgba (spr : ImageSprite) (x y : ℕ) : Rgba :=
  let idx := y * spr.width + x
  match spr.format with
  | .rgba =>
      let base := idx * 4
      ⟨byte_at spr.buffer base, byte_at spr.buffer (base + 1),
        byte_at spr.buffer (base + 2), byte_at spr.buffer (base + 3)⟩
  | .rgb =>
      let base := idx * 3
      ⟨byte_at spr.buffer base, byte_at spr.buffer (base + 1),
        byte_at spr.buffer (base + 2), 255⟩
  | .grayscale =>
      let gray := byte_at spr.buffer idx
      ⟨gray, gray, gray, 255⟩

def ImageSprite.set_z_order (spr : ImageSprite) (z : ℤ) : ImageSprite :=
  { spr with z_order := z }

/-- The saturating truncating conversion performed by the Rust expression
casting an f32 to u8: negative values clamp to 0, values of 255 and above
clamp to 255, and values in between are truncated toward zero. -/
def rust_cast_u8 (q : ℚ) : ℕ :=
  if q ≤ 0 then 0 else if 255 ≤ q then 255 else (⌊q⌋).toNat

/-- The source coordinate obtained by inverse-mapping the destination
pixel p = (ty, tx); the target point is Vec2::new(tx, ty). -/
def sample_point (inv : Matrix3x3) (p : ℕ × ℕ) : Vec2 :=
  inv.transform_point ⟨(p.2 : ℚ), (p.1 : ℚ)⟩

/-- The bounds check of render_to on a source coordinate. -/
def in_bounds (w h : ℕ) (v : Vec2) : Prop :=
  0 ≤ v.x ∧ v.x < (w : ℚ) ∧ 0 ≤ v.y ∧ v.y < (h : ℚ)

instance (w h : ℕ) (v : Vec2) : Decidable (in_bounds w h v) :=
  inferInstanceAs (Decidable (_ ∧ _ ∧ _ ∧ _))

/-- The source pixel sampled for destination pixel p: truncation of the
inverse-mapped coordinate, then get_pixel_rgba. -/
def ImageSprite.sampled_rgba (spr : ImageSprite) (inv : Matrix3x3)
    (p : ℕ × ℕ) : Rgba :=
  spr.get_pixel_rgba (⌊(sample_point inv p).x⌋).toNat
    (⌊(sample_point inv p).y⌋).toNat

/-- The body of the double loop of ImageSprite::render_to for one
destination pixel p = (ty, tx), acting on the target byte list. -/
def ImageSprite.render_pixel (spr : ImageSprite) (inv : Matrix3x3) (tw : ℕ)
    (target : List ℕ) (p : ℕ × ℕ) : List ℕ :=
  let sp := sample_point inv p
  if in_bounds spr.width spr.height sp then
    let pixel := spr.get_pixel_rgba (⌊sp.x⌋).toNat (⌊sp.y⌋).toNat
    let alpha : ℚ := (pixel.a : ℚ) / 255
    if 0 < alpha then
      let target_idx := (p.1 * tw + p.2) * 4
      if 1 ≤ alpha then
        (((target.set target_idx pixel.r).set (target_idx + 1)
              pixel.g).set (target_idx + 2) pixel.b).set (target_idx + 3) 255
      else
        let inv_alpha := 1 - alpha
        let t0 := target.set target_idx
          (rust_cast_u8 ((pixel.r : ℚ) * alpha
            + (byte_at target target_idx : ℚ) * inv_alpha))
        let t1 := t0.set (target_idx + 1)
          (rust_cast_u8 ((pixel.g : ℚ) * alpha
            + (byte_at t0 (target_idx + 1) : ℚ) * inv_alpha))
        let t2 := t1.set (target_idx + 2)
          (rust_cast_u8 ((pixel.b : ℚ) * alpha
            + (byte_at t1 (target_idx + 2) : ℚ) * inv_alpha))
        t2.set (target_idx + 3)
          (rust_cast_u8 ((alpha
            + (byte_at t2 (target_idx + 3) : ℚ) / 255 * inv_alpha) * 255))
    else target
  else target

/-- The destination pixels (ty, tx) in the traversal order of render_to:
ty outer from 0 to target_height, tx inner from 0 to target_width. -/
def pixel_list (tw th : ℕ) : List (ℕ × ℕ) :=
  (List.range th) ×ˢ (List.range tw)

/-- ImageSprite::render_to; returns the updated target buffer together
with the sprite updated by the matrix-cache write of
get_transform_matrix. -/
def ImageSprite.render_to (cosF sinF : ℚ → ℚ) (spr : ImageSprite)
    (target : List ℕ) (target_width target_height : ℕ) :
    List ℕ × ImageSprite :=
  let mt := spr.transform.matrix_with_size cosF sinF (spr.width : ℚ)
    (spr.height : ℚ)
  let spr2 := { spr with transform := mt.2 }
  match mt.1.inverse with
  | none => (target, spr2)
  | some inv =>
      ((pixel_list target_width target_height).foldl
        (spr.render_pixel inv target_width) target, spr2)

/-- Scene, embedding Scene from scene/scene.rs; the sprite list holds the
sole concrete Sprite implementation, ImageSprite. -/
structure Scene where
  buffer : List ℕ
  width : ℕ
  height : ℕ
  background_color : Rgba
  sprites : List ImageSprite
  needs_sort : Bool
deriving DecidableEq

def Scene.new (width height : ℕ) : Scene :=
  ⟨List.replicate (width * height * 4) 0, width, height, ⟨0, 0, 0, 255⟩,
    [], false⟩

def Scene.set_background_color (s : Scene) (r g b a : ℕ) : Scene :=
  { s with background_color := ⟨r, g, b, a⟩ }

def Scene.add (s : Scene) (spr : ImageSprite) : Scene × ℕ :=
  ({ s with sprites := s.sprites ++ [spr], needs_sort := true }, spr.id)

/-- Scene::remove: remove the first sprite with the given id, shifting
the rest left; the needs_sort flag is not touched. -/
def Scene.remove (s : Scene) (idv : ℕ) : Scene × Bool :=
  match s.sprites.findIdx? (fun sp => sp.id == idv) with
  | some pos => ({ s with sprites := s.sprites.eraseIdx pos }, true)
  | none => (s, false)

def Scene.clear (s : Scene) : Scene :=
  { s with sprites := [], needs_sort := false }

/-- The semantics of Vec::resize(new_len, value): truncate when
shrinking, pad with value when growing. -/
def vec_resize (l : List ℕ) (new_len : ℕ) (value : ℕ) : List ℕ :=
  if new_len ≤ l.length then l.take new_len
  else l ++ List.replicate (new_len - l.length) value

def Scene.resize (s : Scene) (width height : ℕ) : Scene :=
  { s with
      width := width
      height := height
      buffer := vec_resize s.buffer (width * height * 4) 0 }

/-- Ascending comparison by z_order used by Scene::sort_sprites. -/
def z_le (a b : ImageSprite) : Prop := a.z_order ≤ b.z_order

instance : DecidableRel z_le :=
  fun a b => inferInstanceAs (Decidable (a.z_order ≤ b.z_order))

instance : IsTotal ImageSprite z_le :=
  ⟨fun a b => le_total a.z_order b.z_order⟩

instance : IsTrans ImageSprite z_le :=
  ⟨fun _ _ _ h1 h2 => le_trans h1 h2⟩

/-- Scene::sort_sprites: when the flag is set, stable-sort by z_order and
clear the flag.  Rust sort_by_key is a stable ascending sort, and every
stable ascending sort produces the same list, so it is modeled by
insertion sort. -/
def Scene.sort_sprites (s : Scene) : Scene :=
  if s.needs_sort then
    { s with
        sprites := List.insertionSort z_le s.sprites
        needs_sort := false }
  else s

/-- The indices 0, 4, 8, ... stepped over by Scene::clear_buffer. -/
def clear_steps (len : ℕ) : List ℕ :=
  (List.range len).filter (fun i => i % 4 == 0)

/-- One step of Scene::clear_buffer: write the background color into the
four bytes starting at index i. -/
def fill_bg_pixel (bg : Rgba) (b : List ℕ) (i : ℕ) : List ℕ :=
  (((b.set i bg.r).set (i + 1) bg.g).set (i + 2) bg.b).set (i + 3) bg.a

/-- Scene::clear_buffer: fill the whole output buffer with the
background color. -/
def Scene.clear_buffer (s : Scene) : Scene :=
  { s with
      buffer := (clear_steps s.buffer.length).foldl
        (fill_bg_pixel s.background_color) s.buffer }

def Scene.mark_needs_sort (s : Scene) : Scene :=
  { s with needs_sort := true }

/-- Scene::render: sort, clear, then composite every sprite in order
into the shared buffer.  Each render_to call also updates the matrix
cache of its sprite, which is threaded through. -/
def Scene.render (cosF sinF : ℚ → ℚ) (s : Scene) : Scene :=
  let s1 := s.sort_sprites
  let s2 := s1.clear_buffer
  let res := s2.sprites.foldl
    (fun acc spr =>
      let r := spr.render_to cosF sinF acc.1 s2.width s2.height
      (r.1, acc.2 ++ [r.2]))
    (s2.buffer, ([] : List ImageSprite))
  { s2 with buffer := res.1, sprites := res.2 }

/-- The four bytes of destination pixel p = (ty, tx) in a target buffer
of pixel width tw. -/
def slice_at (tw : ℕ) (p : ℕ × ℕ) (buf : List ℕ) : Rgba :=
  let base := (p.1 * tw + p.2) * 4
  ⟨byte_at buf base, byte_at buf (base + 1), byte_at buf (base + 2),
    byte_at buf (base + 3)⟩

/-- The compositing step of render_to expressed as a pure function from
the sampled source pixel and the four destination bytes to the new
destination bytes. -/
def composite_rgba (pixel dst : Rgba) : Rgba :=
  let alpha : ℚ := (pixel.a : ℚ) / 255
  if 0 < alpha then
    if 1 ≤ alpha then ⟨pixel.r, pixel.g, pixel.b, 255⟩
    else
      let inv_alpha := 1 - alpha
      ⟨rust_cast_u8 ((pixel.r : ℚ) * alpha + (dst.r : ℚ) * inv_alpha),
        rust_cast_u8 ((pixel.g : ℚ) * alpha + (dst.g : ℚ) * inv_alpha),
        rust_cast_u8 ((pixel.b : ℚ) * alpha + (dst.b : ℚ) * inv_alpha),
        rust_cast_u8 ((alpha + (dst.a : ℚ) / 255 * inv_alpha) * 255)⟩
  else dst

/-- A matrix cache is coherent when it is either empty or holds exactly
the matrix computed from the current fields; every reachable Transform2D
satisfies this, because only the matrix method fills the cache. -/
def cache_ok (cosF sinF : ℚ → ℚ) (t : Transform2D) : Prop :=
  t.matrix_cache = none ∨ t.matrix_cache = some (t.computed_matrix cosF sinF)

/-- The sprite update performed by one render_to call: only the matrix
cache inside the transform can change. -/
def render_upd (cosF sinF : ℚ → ℚ) (spr : ImageSprite) : ImageSprite :=
  { spr with
      transform := (spr.transform.matrix_with_size cosF sinF
        (spr.width : ℚ) (spr.height : ℚ)).2 }

/-- The exact values of cosine and sine at angle zero, used to
instantiate the trig parameters on concrete sprites with rotation 0. -/
def cos0 : ℚ → ℚ := fun _ => 1

def sin0 : ℚ → ℚ := fun _ => 0

/-- A transform with anchor (0,0) and otherwise default fields, so that
the full matrix of a sprite carrying it is the identity. -/
def sample_transform : Transform2D := Transform2D.new.set_anchor 0 0

/-- 1x1 fully opaque RGBA sprite. -/
def spr_solid : ImageSprite :=
  ⟨0, [7, 8, 9, 255], 1, 1, ImageFormat.rgba, sample_transform, 0⟩

/-- 1x1 fully transparent RGBA sprite. -/
def spr_clear : ImageSprite :=
  ⟨1, [7, 8, 9, 0], 1, 1, ImageFormat.rgba, sample_transform, 0⟩

/-- 1x1 RGBA sprite with source alpha 128. -/
def spr_half : ImageSprite :=
  ⟨2, [100, 100, 100, 128], 1, 1, ImageFormat.rgba, sample_transform, 0⟩

/-- 1x1 sprite whose transform has zero scale, hence a singular matrix. -/
def spr_degenerate : ImageSprite :=
  ⟨3, [7, 8, 9, 255], 1, 1, ImageFormat.rgba, Transform2D.new.set_scale 0 0, 0⟩

/-- 1x1 sprite translated far outside a 1x1 target. -/
def spr_far : ImageSprite :=
  ⟨4, [7, 8, 9, 255], 1, 1, ImageFormat.rgba,
    (Transform2D.new.set_position 100 100).set_anchor 0 0, 0⟩

/-- A 1x1 sprite with default transform and the given id and z_order. -/
def spr_z (idv : ℕ) (z : ℤ) : ImageSprite :=
  ⟨idv, [0, 0, 0, 0], 1, 1, ImageFormat.rgba, Transform2D.new, z⟩

/-- A 0x0 scene holding three sprites with z_orders 10, 5, 15, flagged
for sorting. -/
def scene_unsorted : Scene :=
  ⟨[], 0, 0, ⟨0, 0, 0, 255⟩, [spr_z 0 10, spr_z 1 5, spr_z 2 15], true⟩

/-! ### Helper lemmas on byte buffers -/

theorem byte_at_set_ne {l : List ℕ} {i j v : ℕ} (h : i ≠ j) :
    byte_at (l.set i v) j = byte_at l j := by
  simp [byte_at, List.getD_eq_getElem?_getD, List.getElem?_set_ne h]

theorem byte_at_set_self {l : List ℕ} {i v : ℕ} (h : i < l.length) :
    byte_at (l.set i v) i = v := by
  simp [byte_at, List.getD_eq_getElem?_getD, List.getElem?_set_self h]

theorem rust_cast_u8_le (q : ℚ) : rust_cast_u8 q ≤ 255 := by
  unfold rust_cast_u8
  split_ifs with h1 h2
  · exact Nat.zero_le _
  · exact le_refl _
  · have hq : q < 255 := lt_of_not_le h2
    have hf : ⌊q⌋ < (255 : ℤ) := by
      exact_mod_cast Int.floor_lt.mpr (by exact_mod_cast hq)
    omega

/-! ### C1: from_buffer performs no validation -/

/-- C1 counterexample: a byte sequence of length 3 with a declared 1x1
RGBA shape (needing 4 bytes) is not rejected; from_buffer produces a
sprite storing the mismatched buffer, so the claim that no layer is
produced on a size mismatch is false. -/
theorem c1_counterexample :
    ImageSprite.from_buffer 0 [0, 0, 0] 1 1 ImageFormat.rgba =
      ⟨0, [0, 0, 0], 1, 1, ImageFormat.rgba, Transform2D.new, 0⟩ ∧
    (ImageSprite.from_buffer 0 [0, 0, 0] 1 1
        ImageFormat.rgba).buffer.length ≠
      1 * 1 * ImageFormat.channels ImageFormat.rgba := by
  exact ⟨rfl, by decide⟩

/-- C1 (amended): ImageSprite::from_buffer performs no size validation;
for every input, including byte sequences whose length differs from
width times height times channels, it constructs a sprite storing the
given buffer, width, height and format unchanged, with a default
transform and z_order 0. -/
theorem c1_from_buffer_no_validation (idv : ℕ) (buffer : List ℕ)
    (width height : ℕ) (format : ImageFormat) :
    (ImageSprite.from_buffer idv buffer width height format).buffer
        = buffer ∧
    (ImageSprite.from_buffer idv buffer width height format).width
        = width ∧
    (ImageSprite.from_buffer idv buffer width height format).height
        = height ∧
    (ImageSprite.from_buffer idv buffer width height format).format
        = format ∧
    (ImageSprite.from_buffer idv buffer width height format).id = idv ∧
    (ImageSprite.from_buffer idv buffer width height format).transform
        = Transform2D.new ∧
    (ImageSprite.from_buffer idv buffer width height format).z_order
        = 0 :=
  ⟨rfl, rfl, rfl, rfl, rfl, rfl, rfl⟩

/-! ### C2: resize does not zero the retained prefix -/

/-- C2 counterexample: resizing a 1x1 scene whose buffer holds the
nonzero bytes 9,9,9,9 to 2x1 keeps those bytes, so the output buffer is
not all zero after resize. -/
theorem c2_counterexample :
    ((Scene.mk [9, 9, 9, 9] 1 1 ⟨0, 0, 0, 255⟩ [] false).resize
        2 1).buffer = [9, 9, 9, 9, 0, 0, 0, 0] ∧ (9 : ℕ) ≠ 0 := by
  exact ⟨by decide, by decide⟩

/-- C2 (amended): Scene::resize leaves the output buffer with length
width times height times 4 and leaves every layer untouched, but it does
not zero the whole buffer: the retained prefix keeps its old bytes and
only the newly added suffix is zero-filled. -/
theorem c2_resize_behavior (s : Scene) (width height : ℕ) :
    (s.resize width height).buffer.length = width * height * 4 ∧
    (s.resize width height).buffer =
      s.buffer.take (width * height * 4) ++
        List.replicate (width * height * 4 - s.buffer.length) 0 ∧
    (s.resize width height).sprites = s.sprites ∧
    (s.resize width height).width = width ∧
    (s.resize width height).height = height := by
  refine ⟨?_, ?_, rfl, rfl, rfl⟩ <;>
    simp only [Scene.resize, vec_resize] <;> split_ifs with h
  · simp [List.length_take, Nat.min_eq_left h]
  · simp
    omega
  · have h0 : width * height * 4 - s.buffer.length = 0 := by omega
    simp [h0]
  · have h1 : s.buffer.take (width * height * 4) = s.buffer :=
      List.take_of_length_le (by omega)
    rw [h1]

/-! ### C9: every mutator empties the matrix cache -/

/-- C9: all ten Transform2D mutators leave the matrix cache empty, a
matrix call on a transform with an empty cache returns the matrix
computed from the current fields, and two consecutive matrix calls with
no intervening mutation return the same matrix. -/
theorem c9_cache_invalidation (cosF sinF torad : ℚ → ℚ) (t : Transform2D)
    (x y angle degrees sx sy s ax ay dx dy : ℚ) :
    (t.set_position x y).matrix_cache = none ∧
    (t.set_rotation angle).matrix_cache = none ∧
    (t.set_rotation_degrees torad degrees).matrix_cache = none ∧
    (t.set_scale sx sy).matrix_cache = none ∧
    (t.set_uniform_scale s).matrix_cache = none ∧
    (t.set_anchor ax ay).matrix_cache = none ∧
    (t.translate dx dy).matrix_cache = none ∧
    (t.rotate angle).matrix_cache = none ∧
    (t.rotate_degrees torad degrees).matrix_cache = none ∧
    (t.scale_by sx sy).matrix_cache = none ∧
    (∀ t2 : Transform2D, t2.matrix_cache = none →
      (t2.matrix cosF sinF).1 = t2.computed_matrix cosF sinF) ∧
    (∀ t2 : Transform2D,
      (((t2.matrix cosF sinF).2).matrix cosF sinF).1 =
        (t2.matrix cosF sinF).1) := by
  refine ⟨rfl, rfl, rfl, rfl, rfl, rfl, rfl, rfl, rfl, rfl, ?_, ?_⟩
  · intro t2 h
    simp [Transform2D.matrix, h]
  · intro t2
    rcases h : t2.matrix_cache with _ | cached <;>
      simp [Transform2D.matrix, h]

/-- C9 witness: a concrete mutation empties the cache, and the matrix
computed right after reflects the mutated fields. -/
theorem c9_cache_invalidation_witness :
    (Transform2D.new.set_position 3 4).matrix_cache = none ∧
    ((Transform2D.new.set_position 3 4).matrix cos0 sin0).1 =
      (Transform2D.new.set_position 3 4).computed_matrix cos0 sin0 := by
  refine ⟨(c9_cache_invalidation cos0 sin0 id Transform2D.new
    3 4 0 0 1 1 1 0 0 0 0).1, ?_⟩
  exact (c9_cache_invalidation cos0 sin0 id Transform2D.new
    3 4 0 0 1 1 1 0 0 0
    0).2.2.2.2.2.2.2.2.2.2.1 (Transform2D.new.set_position 3 4) rfl

/-! ### C10: remove keeps order and the sort flag -/

/-- C10: Scene::remove never touches the dirty-sort flag and keeps the
remaining sprites in their previous relative order (the new list is a
sublist of the old); hence a z_order-sorted list stays sorted. -/
theorem c10_remove_preserves (s : Scene) (idv : ℕ) :
    (s.remove idv).1.needs_sort = s.needs_sort ∧
    ((s.remove idv).1.sprites).Sublist s.sprites ∧
    (List.Pairwise z_le s.sprites →
      List.Pairwise z_le (s.remove idv).1.sprites) := by
  unfold Scene.remove
  rcases h : s.sprites.findIdx? (fun sp => sp.id == idv) with _ | pos <;>
    simp only [h]
  · exact ⟨trivial, List.Sublist.refl _, fun hp => hp⟩
  · exact ⟨trivial, List.eraseIdx_sublist _ _,
      fun hp => List.Pairwise.sublist (List.eraseIdx_sublist _ _) hp⟩

/-- C10 witness: removing the middle sprite of a concrete sorted scene
keeps the flag clear and the rest sorted. -/
theorem c10_remove_preserves_witness :
    ((Scene.mk [] 0 0 ⟨0, 0, 0, 255⟩ [spr_z 0 1, spr_z 1 2, spr_z 2 3]
        false).remove 1).1.needs_sort = false ∧
    List.Pairwise z_le
      ((Scene.mk [] 0 0 ⟨0, 0, 0, 255⟩ [spr_z 0 1, spr_z 1 2, spr_z 2 3]
        false).remove 1).1.sprites := by
  have h := c10_remove_preserves
    (Scene.mk [] 0 0 ⟨0, 0, 0, 255⟩ [spr_z 0 1, spr_z 1 2, spr_z 2 3]
      false) 1
  refine ⟨h.1, h.2.2 ?_⟩
  simp [List.pairwise_cons, z_le, spr_z]

/-! ### C5: no inverse below the determinant threshold; render skips -/

/-- C5: Matrix3x3::inverse returns none exactly when the absolute
determinant is below 1e-10, and when the full transform matrix of a
sprite has no inverse, render_to returns the target buffer unchanged. -/
theorem c5_noninvertible_skip (cosF sinF : ℚ → ℚ) (m : Matrix3x3)
    (spr : ImageSprite) (target : List ℕ) (tw th : ℕ) :
    (m.inverse = none ↔ |m.determinant| < 1 / 10 ^ 10) ∧
    ((spr.transform.matrix_with_size cosF sinF (spr.width : ℚ)
        (spr.height : ℚ)).1.inverse = none →
      (spr.render_to cosF sinF target tw th).1 = target) := by
  constructor
  · unfold Matrix3x3.inverse
    dsimp only
    split_ifs with h
    · simpa [one_div] using h
    · simpa [one_div, not_lt] using h
  · intro h
    unfold ImageSprite.render_to
    simp [h]

/-- C5 witness: a zero-scale sprite has a singular matrix and its
render_to call leaves a concrete target buffer unchanged. -/
theorem c5_noninvertible_skip_witness :
    (spr_degenerate.transform.matrix_with_size cos0 sin0
        (spr_degenerate.width : ℚ) (spr_degenerate.height : ℚ)).1.inverse
      = none ∧
    (spr_degenerate.render_to cos0 sin0 [1, 2, 3, 4] 1 1).1
      = [1, 2, 3, 4] := by
  have hnone : (spr_degenerate.transform.matrix_with_size cos0 sin0
      (spr_degenerate.width : ℚ) (spr_degenerate.height : ℚ)).1.inverse
      = none := by
    norm_num [spr_degenerate, Transform2D.new, Transform2D.set_scale,
      Transform2D.invalidate_cache, Transform2D.matrix_with_size,
      Transform2D.matrix, Transform2D.computed_matrix,
      Matrix3x3.translation, Matrix3x3.rotation, Matrix3x3.scaling,
      Matrix3x3.multiply, Matrix3x3.inverse, Matrix3x3.determinant,
      cos0, sin0, Vec2.zero, Vec2.one]
  exact ⟨hnone, (c5_noninvertible_skip cos0 sin0 Matrix3x3.identity
    spr_degenerate [1, 2, 3, 4] 1 1).2 hnone⟩

/-! ### C8: composition order of the transform matrix -/

/-- C8: on a coherent cache, matrix returns the product of translation,
rotation and scaling of the current fields; matrix_with_size
right-composes the anchor offset translation; and the concrete chain
scale(2,2), rotate(90 degrees), translate(10,10) maps (1,0) to
(10,12). -/
theorem c8_matrix_composition (cosF sinF : ℚ → ℚ) (t : Transform2D)
    (w h θ : ℚ) (hc : cache_ok cosF sinF t) :
    (t.matrix cosF sinF).1 =
      ((Matrix3x3.translation t.position.x t.position.y).multiply
          (Matrix3x3.rotation cosF sinF t.rotation)).multiply
        (Matrix3x3.scaling t.scale.x t.scale.y) ∧
    (t.matrix_with_size cosF sinF w h).1 =
      (((Matrix3x3.translation t.position.x t.position.y).multiply
            (Matrix3x3.rotation cosF sinF t.rotation)).multiply
          (Matrix3x3.scaling t.scale.x t.scale.y)).multiply
        (Matrix3x3.translation (-t.anchor.x * w) (-t.anchor.y * h)) ∧
    (cosF θ = 0 → sinF θ = 1 →
      (((Matrix3x3.translation 10 10).multiply
            (Matrix3x3.rotation cosF sinF θ)).multiply
          (Matrix3x3.scaling 2 2)).transform_point ⟨1, 0⟩ = ⟨10, 12⟩) := by
  have h1 : (t.matrix cosF sinF).1 = t.computed_matrix cosF sinF := by
    rcases hc with h2 | h2 <;> simp [Transform2D.matrix, h2]
  refine ⟨h1, ?_, ?_⟩
  · simp [Transform2D.matrix_with_size, h1, Transform2D.computed_matrix]
  · intro hcos hsin
    norm_num [Matrix3x3.translation, Matrix3x3.rotation,
      Matrix3x3.scaling, Matrix3x3.multiply, Matrix3x3.transform_point,
      hcos, hsin, Vec2.mk.injEq]

/-- C8 witness: the default transform (empty cache) instantiates the
composition equations, and cosine 0, sine 1 instantiate the concrete
90 degree chain mapping (1,0) to (10,12). -/
theorem c8_matrix_composition_witness :
    (Transform2D.new.matrix (fun _ => (0 : ℚ)) (fun _ => (1 : ℚ))).1 =
      ((Matrix3x3.translation 0 0).multiply
          (Matrix3x3.rotation (fun _ => (0 : ℚ)) (fun _ => (1 : ℚ))
            0)).multiply
        (Matrix3x3.scaling 1 1) ∧
    (((Matrix3x3.translation 10 10).multiply
          (Matrix3x3.rotation (fun _ => (0 : ℚ)) (fun _ => (1 : ℚ))
            0)).multiply
        (Matrix3x3.scaling 2 2)).transform_point ⟨1, 0⟩ = ⟨10, 12⟩ := by
  have h := c8_matrix_composition (fun _ => (0 : ℚ)) (fun _ => (1 : ℚ))
    Transform2D.new 1 1 0 (Or.inl rfl)
  constructor
  · simpa [Transform2D.new, Vec2.zero, Vec2.one] using h.1
  · exact h.2.2 rfl rfl

/-! ### C6: render stable-sorts by z_order and clears the flag -/

theorem render_to_snd (cosF sinF : ℚ → ℚ) (spr : ImageSprite)
    (target : List ℕ) (tw th : ℕ) :
    (spr.render_to cosF sinF target tw th).2 =
      render_upd cosF sinF spr := by
  unfold ImageSprite.render_to
  rcases h : (spr.transform.matrix_with_size cosF sinF (spr.width : ℚ)
      (spr.height : ℚ)).1.inverse with _ | inv <;>
    simp [h, render_upd]

theorem render_fold_sprites (cosF sinF : ℚ → ℚ) (w h : ℕ)
    (l : List ImageSprite) :
    ∀ (buf : List ℕ) (acc : List ImageSprite),
      (l.foldl (fun acc2 spr =>
          let r := spr.render_to cosF sinF acc2.1 w h
          (r.1, acc2.2 ++ [r.2]))
        (buf, acc)).2 = acc ++ l.map (render_upd cosF sinF) := by
  induction l with
  | nil => intro buf acc; simp
  | cons spr l ih =>
      intro buf acc
      simp only [List.foldl_cons, List.map_cons]
      rw [ih]
      simp [render_to_snd]

theorem render_sprites_eq (cosF sinF : ℚ → ℚ) (s : Scene)
    (h : s.needs_sort = true) :
    (s.render cosF sinF).sprites =
      (List.insertionSort z_le s.sprites).map (render_upd cosF sinF) ∧
    (s.render cosF sinF).needs_sort = false := by
  constructor
  · simp only [Scene.render, Scene.sort_sprites, Scene.clear_buffer, h,
      if_true]
    rw [render_fold_sprites]
    simp
  · simp only [Scene.render, Scene.sort_sprites, Scene.clear_buffer, h,
      if_true]

theorem insertionSort_filter_z (l : List ImageSprite) (z : ℤ) :
    (List.insertionSort z_le l).filter (fun sp => sp.z_order == z) =
      l.filter (fun sp => sp.z_order == z) := by
  have hpair : List.Pairwise z_le
      (l.filter (fun sp => sp.z_order == z)) := by
    apply List.pairwise_of_forall_mem_list
    intro a ha b hb
    have ha2 : a.z_order = z := by simpa using (List.mem_filter.mp ha).2
    have hb2 : b.z_order = z := by simpa using (List.mem_filter.mp hb).2
    unfold z_le
    rw [ha2, hb2]
  have hsub1 : (l.filter (fun sp => sp.z_order == z)).Sublist
      (List.insertionSort z_le l) :=
    List.sublist_insertionSort hpair (List.filter_sublist l)
  have hself : (l.filter (fun sp => sp.z_order == z)).filter
      (fun sp => sp.z_order == z) = l.filter (fun sp => sp.z_order == z) :=
    List.filter_eq_self.mpr fun a ha => (List.mem_filter.mp ha).2
  have hsub2 := hsub1.filter (fun sp => sp.z_order == z)
  rw [hself] at hsub2
  have hperm : ((List.insertionSort z_le l).filter
      (fun sp => sp.z_order == z)).Perm
      (l.filter (fun sp => sp.z_order == z)) :=
    (List.perm_insertionSort z_le l).filter (fun sp => sp.z_order == z)
  exact (hsub2.eq_of_length hperm.length_eq.symm).symm

/-- C6: when render runs with the dirty-sort flag set, the flag is
cleared and the resulting sprite list is sorted by ascending z_order;
for every z value, the sprites of that z value keep their insertion
order (their id sequence is unchanged), which is exactly stability. -/
theorem c6_render_sorts (cosF sinF : ℚ → ℚ) (s : Scene)
    (h : s.needs_sort = true) :
    (s.render cosF sinF).needs_sort = false ∧
    List.Pairwise z_le (s.render cosF sinF).sprites ∧
    ∀ z : ℤ,
      ((s.render cosF sinF).sprites.filter
          (fun sp => sp.z_order == z)).map ImageSprite.id =
        (s.sprites.filter (fun sp => sp.z_order == z)).map
          ImageSprite.id := by
  obtain ⟨hs, hf⟩ := render_sprites_eq cosF sinF s h
  refine ⟨hf, ?_, ?_⟩
  · rw [hs]
    exact List.Pairwise.map (render_upd cosF sinF) (fun a b hab => hab)
      (List.sorted_insertionSort z_le s.sprites)
  · intro z
    rw [hs, List.filter_map]
    have hcomp : ((fun sp : ImageSprite => sp.z_order == z) ∘
        render_upd cosF sinF) = (fun sp : ImageSprite => sp.z_order == z) :=
      rfl
    rw [hcomp, List.map_map]
    have hid : (ImageSprite.id ∘ render_upd cosF sinF) = ImageSprite.id :=
      rfl
    rw [hid, insertionSort_filter_z]

/-- C6 witness: a concrete scene with z_orders 10, 5, 15 renders with a
cleared flag and its sprites in z_order 5, 10, 15. -/
theorem c6_render_sorts_witness :
    scene_unsorted.needs_sort = true ∧
    (scene_unsorted.render cos0 sin0).needs_sort = false ∧
    List.Pairwise z_le (scene_unsorted.render cos0 sin0).sprites ∧
    ((scene_unsorted.render cos0 sin0).sprites.map ImageSprite.z_order)
      = [5, 10, 15] := by
  have h := c6_render_sorts cos0 sin0 scene_unsorted rfl
  refine ⟨rfl, h.1, h.2.1, ?_⟩
  obtain ⟨hs, _⟩ := render_sprites_eq cos0 sin0 scene_unsorted rfl
  rw [hs, List.map_map]
  have hz : (ImageSprite.z_order ∘ render_upd cos0 sin0) =
      ImageSprite.z_order := rfl
  rw [hz]
  norm_num [List.insertionSort, List.orderedInsert, z_le, spr_z,
    scene_unsorted]

/-! ### Locality of the render loop -/

theorem length_render_pixel (spr : ImageSprite) (inv : Matrix3x3)
    (tw : ℕ) (t : List ℕ) (q : ℕ × ℕ) :
    (spr.render_pixel inv tw t q).length = t.length := by
  simp only [ImageSprite.render_pixel]
  split_ifs <;> simp

theorem render_pixel_byte_ne (spr : ImageSprite) (inv : Matrix3x3)
    (tw : ℕ) (t : List ℕ) (q : ℕ × ℕ) (j : ℕ)
    (h : j / 4 ≠ q.1 * tw + q.2) :
    byte_at (spr.render_pixel inv tw t q) j = byte_at t j := by
  simp only [ImageSprite.render_pixel]
  set k := q.1 * tw + q.2 with hk
  have n0 : k * 4 ≠ j := by omega
  have n1 : k * 4 + 1 ≠ j := by omega
  have n2 : k * 4 + 2 ≠ j := by omega
  have n3 : k * 4 + 3 ≠ j := by omega
  split_ifs <;>
    simp [byte_at_set_ne n0, byte_at_set_ne n1, byte_at_set_ne n2,
      byte_at_set_ne n3]

theorem slice_at_render_pixel_ne (spr : ImageSprite) (inv : Matrix3x3)
    (tw : ℕ) (t : List ℕ) (p q : ℕ × ℕ)
    (h : q.1 * tw + q.2 ≠ p.1 * tw + p.2) :
    slice_at tw p (spr.render_pixel inv tw t q) = slice_at tw p t := by
  have hb : ∀ j, j / 4 = p.1 * tw + p.2 →
      byte_at (spr.render_pixel inv tw t q) j = byte_at t j := by
    intro j hj
    apply render_pixel_byte_ne
    rw [hj]
    exact fun hEq => h hEq.symm
  simp only [slice_at]
  rw [hb ((p.1 * tw + p.2) * 4)
      (by set a := p.1 * tw + p.2 with ha; omega),
    hb ((p.1 * tw + p.2) * 4 + 1)
      (by set a := p.1 * tw + p.2 with ha; omega),
    hb ((p.1 * tw + p.2) * 4 + 2)
      (by set a := p.1 * tw + p.2 with ha; omega),
    hb ((p.1 * tw + p.2) * 4 + 3)
      (by set a := p.1 * tw + p.2 with ha; omega)]

theorem slice_at_foldl_untouched (spr : ImageSprite) (inv : Matrix3x3)
    (tw : ℕ) (p : ℕ × ℕ) :
    ∀ (l : List (ℕ × ℕ)) (t : List ℕ),
      (∀ q ∈ l, q.1 * tw + q.2 ≠ p.1 * tw + p.2) →
      slice_at tw p (l.foldl (spr.render_pixel inv tw) t) =
        slice_at tw p t := by
  intro l
  induction l with
  | nil => intro t _; rfl
  | cons q l ih =>
      intro t h
      simp only [List.foldl_cons]
      rw [ih _ (fun q2 hq2 => h q2 (List.mem_cons_of_mem _ hq2)),
        slice_at_render_pixel_ne spr inv tw t p q
          (h q (List.mem_cons_self _ _))]

theorem lin_idx_inj (tw : ℕ) (p q : ℕ × ℕ) (hp : p.2 < tw)
    (hq : q.2 < tw) (h : p.1 * tw + p.2 = q.1 * tw + q.2) : p = q := by
  have htw : 0 < tw := Nat.lt_of_le_of_lt (Nat.zero_le _) hp
  rw [Nat.mul_comm p.1 tw, Nat.mul_comm q.1 tw] at h
  have e1 : (tw * p.1 + p.2) % tw = p.2 := by
    rw [Nat.mul_add_mod, Nat.mod_eq_of_lt hp]
  have e2 : (tw * q.1 + q.2) % tw = q.2 := by
    rw [Nat.mul_add_mod, Nat.mod_eq_of_lt hq]
  have d1 : (tw * p.1 + p.2) / tw = p.1 := by
    rw [Nat.mul_add_div htw, Nat.div_eq_of_lt hp, Nat.add_zero]
  have d2 : (tw * q.1 + q.2) / tw = q.1 := by
    rw [Nat.mul_add_div htw, Nat.div_eq_of_lt hq, Nat.add_zero]
  have h1 : p.2 = q.2 := by rw [← e1, ← e2, h]
  have h2 : p.1 = q.1 := by rw [← d1, ← d2, h]
  exact Prod.ext h2 h1

theorem mem_pixel_list {tw th : ℕ} {p : ℕ × ℕ} :
    p ∈ pixel_list tw th ↔ p.1 < th ∧ p.2 < tw := by
  obtain ⟨a, b⟩ := p
  simp [pixel_list, List.mem_product, List.mem_range]

theorem nodup_pixel_list (tw th : ℕ) : (pixel_list tw th).Nodup := by
  unfold pixel_list
  exact List.Nodup.product (List.nodup_range th) (List.nodup_range tw)

theorem slice_at_set4 (tw : ℕ) (p : ℕ × ℕ) (t : List ℕ)
    (v0 v1 v2 v3 : ℕ) (hb : (p.1 * tw + p.2) * 4 + 3 < t.length) :
    slice_at tw p ((((t.set ((p.1 * tw + p.2) * 4) v0).set
        ((p.1 * tw + p.2) * 4 + 1) v1).set
        ((p.1 * tw + p.2) * 4 + 2) v2).set
        ((p.1 * tw + p.2) * 4 + 3) v3) = ⟨v0, v1, v2, v3⟩ := by
  simp only [slice_at]
  set b := (p.1 * tw + p.2) * 4 with hbdef
  have l0 : b < t.length := by omega
  have l1 : b + 1 < (t.set b v0).length := by
    rw [List.length_set]; omega
  have l2 : b + 2 < ((t.set b v0).set (b + 1) v1).length := by
    rw [List.length_set, List.length_set]; omega
  have l3 : b + 3 <
      (((t.set b v0).set (b + 1) v1).set (b + 2) v2).length := by
    rw [List.length_set, List.length_set, List.length_set]; omega
  simp only [Rgba.mk.injEq]
  refine ⟨?_, ?_, ?_, ?_⟩
  · rw [byte_at_set_ne (show b + 3 ≠ b by omega),
      byte_at_set_ne (show b + 2 ≠ b by omega),
      byte_at_set_ne (show b + 1 ≠ b by omega),
      byte_at_set_self l0]
  · rw [byte_at_set_ne (show b + 3 ≠ b + 1 by omega),
      byte_at_set_ne (show b + 2 ≠ b + 1 by omega),
      byte_at_set_self l1]
  · rw [byte_at_set_ne (show b + 3 ≠ b + 2 by omega),
      byte_at_set_self l2]
  · rw [byte_at_set_self l3]

theorem slice_at_render_pixel_self (spr : ImageSprite) (inv : Matrix3x3)
    (tw th : ℕ) (t : List ℕ) (p : ℕ × ℕ)
    (hp1 : p.1 < th) (hp2 : p.2 < tw)
    (hlen : t.length = tw * th * 4) :
    slice_at tw p (spr.render_pixel inv tw t p) =
      if in_bounds spr.width spr.height (sample_point inv p)
      then composite_rgba (spr.sampled_rgba inv p) (slice_at tw p t)
      else slice_at tw p t := by
  have hlin : p.1 * tw + p.2 + 1 ≤ tw * th := by
    have h1 : p.1 + 1 ≤ th := hp1
    have h2 : (p.1 + 1) * tw ≤ th * tw := Nat.mul_le_mul_right tw h1
    have h3 : p.1 * tw + p.2 + 1 ≤ (p.1 + 1) * tw := by
      have h4 : p.2 + 1 ≤ tw := hp2
      calc p.1 * tw + p.2 + 1 ≤ p.1 * tw + tw := by omega
        _ = (p.1 + 1) * tw := by ring
    calc p.1 * tw + p.2 + 1 ≤ (p.1 + 1) * tw := h3
      _ ≤ th * tw := h2
      _ = tw * th := Nat.mul_comm th tw
  have hb : (p.1 * tw + p.2) * 4 + 3 < t.length := by
    rw [hlen]
    have h4 : (p.1 * tw + p.2 + 1) * 4 ≤ tw * th * 4 :=
      Nat.mul_le_mul_right 4 hlin
    omega
  have h01 : (p.1 * tw + p.2) * 4 ≠ (p.1 * tw + p.2) * 4 + 1 := by omega
  have h02 : (p.1 * tw + p.2) * 4 ≠ (p.1 * tw + p.2) * 4 + 2 := by omega
  have h03 : (p.1 * tw + p.2) * 4 ≠ (p.1 * tw + p.2) * 4 + 3 := by omega
  have h12 : (p.1 * tw + p.2) * 4 + 1 ≠ (p.1 * tw + p.2) * 4 + 2 := by
    omega
  have h13 : (p.1 * tw + p.2) * 4 + 1 ≠ (p.1 * tw + p.2) * 4 + 3 := by
    omega
  have h23 : (p.1 * tw + p.2) * 4 + 2 ≠ (p.1 * tw + p.2) * 4 + 3 := by
    omega
  simp only [ImageSprite.render_pixel, ImageSprite.sampled_rgba,
    composite_rgba]
  split_ifs
  · rw [slice_at_set4 tw p t _ _ _ _ hb]
  · simp only [byte_at_set_ne h01, byte_at_set_ne h02,
      byte_at_set_ne h12, byte_at_set_ne h03, byte_at_set_ne h13,
      byte_at_set_ne h23]
    rw [slice_at_set4 tw p t _ _ _ _ hb]
    simp only [slice_at]
  · rfl
  · rfl

theorem slice_at_render_loop (spr : ImageSprite) (inv : Matrix3x3)
    (tw th : ℕ) :
    ∀ (l : List (ℕ × ℕ)) (t : List ℕ) (p : ℕ × ℕ),
      p ∈ l → l.Nodup → (∀ q ∈ l, q.1 < th ∧ q.2 < tw) →
      t.length = tw * th * 4 →
      slice_at tw p (l.foldl (spr.render_pixel inv tw) t) =
        (if in_bounds spr.width spr.height (sample_point inv p)
          then composite_rgba (spr.sampled_rgba inv p) (slice_at tw p t)
          else slice_at tw p t) := by
  intro l
  induction l with
  | nil => intro t p hp; cases hp
  | cons q l ih =>
      intro t p hp hnd hgrid hlen
      have hnotin : q ∉ l := (List.nodup_cons.mp hnd).1
      rcases List.mem_cons.mp hp with hqp | hpl
      · subst hqp
        simp only [List.foldl_cons]
        have hpg := hgrid p (List.mem_cons_self _ _)
        have hother : ∀ q2 ∈ l, q2.1 * tw + q2.2 ≠ p.1 * tw + p.2 := by
          intro q2 hq2 hEq
          have hq2g := hgrid q2 (List.mem_cons_of_mem _ hq2)
          have heq2 : q2 = p := lin_idx_inj tw q2 p hq2g.2 hpg.2 hEq
          exact hnotin (heq2 ▸ hq2)
        rw [slice_at_foldl_untouched spr inv tw p l _ hother]
        exact slice_at_render_pixel_self spr inv tw th t p hpg.1 hpg.2
          hlen
      · simp only [List.foldl_cons]
        have hpg := hgrid p (List.mem_cons_of_mem _ hpl)
        have hqg := hgrid q (List.mem_cons_self _ _)
        have hqp2 : q.1 * tw + q.2 ≠ p.1 * tw + p.2 := by
          intro hEq
          have heq2 : q = p := lin_idx_inj tw q p hqg.2 hpg.2 hEq
          exact hnotin (heq2 ▸ hpl)
        rw [ih (spr.render_pixel inv tw t q) p hpl
          (List.nodup_cons.mp hnd).2
          (fun q2 hq2 => hgrid q2 (List.mem_cons_of_mem _ hq2))
          (by rw [length_render_pixel]; exact hlen),
          slice_at_render_pixel_ne spr inv tw t p q hqp2]

theorem render_to_slice (cosF sinF : ℚ → ℚ) (spr : ImageSprite)
    (target : List ℕ) (tw th : ℕ) (p : ℕ × ℕ) (inv : Matrix3x3)
    (hinv : (spr.transform.matrix_with_size cosF sinF (spr.width : ℚ)
      (spr.height : ℚ)).1.inverse = some inv)
    (hp1 : p.1 < th) (hp2 : p.2 < tw)
    (hlen : target.length = tw * th * 4) :
    slice_at tw p ((spr.render_to cosF sinF target tw th).1) =
      (if in_bounds spr.width spr.height (sample_point inv p)
        then composite_rgba (spr.sampled_rgba inv p)
          (slice_at tw p target)
        else slice_at tw p target) := by
  unfold ImageSprite.render_to
  simp only [hinv]
  exact slice_at_render_loop spr inv tw th (pixel_list tw th) target p
    (mem_pixel_list.mpr ⟨hp1, hp2⟩) (nodup_pixel_list tw th)
    (fun q hq => mem_pixel_list.mp hq) hlen

theorem render_loop_oob (spr : ImageSprite) (inv : Matrix3x3) (tw : ℕ) :
    ∀ (l : List (ℕ × ℕ)) (t : List ℕ),
      (∀ q ∈ l, ¬ in_bounds spr.width spr.height (sample_point inv q)) →
      l.foldl (spr.render_pixel inv tw) t = t := by
  intro l
  induction l with
  | nil => intro t _; rfl
  | cons q l ih =>
      intro t h
      simp only [List.foldl_cons]
      have hq : spr.render_pixel inv tw t q = t := by
        simp only [ImageSprite.render_pixel]
        rw [if_neg (h q (List.mem_cons_self _ _))]
      rw [hq, ih _ (fun q2 hq2 => h q2 (List.mem_cons_of_mem _ hq2))]

/-! ### C7: boundary policy of render_to -/

/-- C7: for a destination pixel of the target grid, when the
inverse-mapped source coordinate falls outside the sprite bounds the
four destination bytes of that pixel are unchanged; when it falls inside,
the pixel sampled by truncating the coordinates is composited onto the
old destination bytes; and when every destination pixel maps out of
bounds the whole target buffer is returned unchanged. -/
theorem c7_boundary_policy (cosF sinF : ℚ → ℚ) (spr : ImageSprite)
    (target : List ℕ) (tw th : ℕ) (p : ℕ × ℕ) (inv : Matrix3x3)
    (hinv : (spr.transform.matrix_with_size cosF sinF (spr.width : ℚ)
      (spr.height : ℚ)).1.inverse = some inv)
    (hp1 : p.1 < th) (hp2 : p.2 < tw)
    (hlen : target.length = tw * th * 4) :
    (¬ in_bounds spr.width spr.height (sample_point inv p) →
      slice_at tw p ((spr.render_to cosF sinF target tw th).1) =
        slice_at tw p target) ∧
    (in_bounds spr.width spr.height (sample_point inv p) →
      slice_at tw p ((spr.render_to cosF sinF target tw th).1) =
        composite_rgba
          (spr.get_pixel_rgba (⌊(sample_point inv p).x⌋).toNat
            (⌊(sample_point inv p).y⌋).toNat)
          (slice_at tw p target)) ∧
    ((∀ q ∈ pixel_list tw th,
        ¬ in_bounds spr.width spr.height (sample_point inv q)) →
      (spr.render_to cosF sinF target tw th).1 = target) := by
  refine ⟨?_, ?_, ?_⟩
  · intro hoob
    rw [render_to_slice cosF sinF spr target tw th p inv hinv hp1 hp2
      hlen, if_neg hoob]
  · intro hib
    rw [render_to_slice cosF sinF spr target tw th p inv hinv hp1 hp2
      hlen, if_pos hib]
    rfl
  · intro hall
    unfold ImageSprite.render_to
    simp only [hinv]
    exact render_loop_oob spr inv tw (pixel_list tw th) target hall

/-! ### C4: alpha 0 skips, alpha 255 overwrites -/

/-- C4: for an in-bounds sample, a source alpha of 0 leaves the four
destination bytes of that pixel unchanged, and a source alpha of 255
overwrites the destination color bytes with the source color and sets
the destination alpha byte to exactly 255. -/
theorem c4_alpha_extremes (cosF sinF : ℚ → ℚ) (spr : ImageSprite)
    (target : List ℕ) (tw th : ℕ) (p : ℕ × ℕ) (inv : Matrix3x3)
    (hinv : (spr.transform.matrix_with_size cosF sinF (spr.width : ℚ)
      (spr.height : ℚ)).1.inverse = some inv)
    (hp1 : p.1 < th) (hp2 : p.2 < tw)
    (hlen : target.length = tw * th * 4)
    (hib : in_bounds spr.width spr.height (sample_point inv p)) :
    ((spr.sampled_rgba inv p).a = 0 →
      slice_at tw p ((spr.render_to cosF sinF target tw th).1) =
        slice_at tw p target) ∧
    ((spr.sampled_rgba inv p).a = 255 →
      slice_at tw p ((spr.render_to cosF sinF target tw th).1) =
        ⟨(spr.sampled_rgba inv p).r, (spr.sampled_rgba inv p).g,
          (spr.sampled_rgba inv p).b, 255⟩) := by
  constructor
  · intro ha
    rw [render_to_slice cosF sinF spr target tw th p inv hinv hp1 hp2
      hlen, if_pos hib]
    simp only [composite_rgba, ha]
    norm_num
  · intro ha
    rw [render_to_slice cosF sinF spr target tw th p inv hinv hp1 hp2
      hlen, if_pos hib]
    simp only [composite_rgba, ha]
    norm_num

/-! ### C3: the blend formula truncates, does not round -/

/-- C3 (amended): for an in-bounds sample with source alpha strictly
between 0 and 255, with a the source alpha divided by 255, each
destination color byte becomes the saturating truncation of
src times a plus dst times (1 - a), and the destination alpha byte
becomes the saturating truncation (not the rounding) of
(a + dstAlpha/255 times (1 - a)) times 255; all four stored bytes lie
within 0..255. -/
theorem c3_blend_truncation (cosF sinF : ℚ → ℚ) (spr : ImageSprite)
    (target : List ℕ) (tw th : ℕ) (p : ℕ × ℕ) (inv : Matrix3x3)
    (hinv : (spr.transform.matrix_with_size cosF sinF (spr.width : ℚ)
      (spr.height : ℚ)).1.inverse = some inv)
    (hp1 : p.1 < th) (hp2 : p.2 < tw)
    (hlen : target.length = tw * th * 4)
    (hib : in_bounds spr.width spr.height (sample_point inv p))
    (h0 : 0 < (spr.sampled_rgba inv p).a)
    (h255 : (spr.sampled_rgba inv p).a < 255) :
    slice_at tw p ((spr.render_to cosF sinF target tw th).1) =
      ⟨rust_cast_u8 (((spr.sampled_rgba inv p).r : ℚ) *
            (((spr.sampled_rgba inv p).a : ℚ) / 255) +
          ((slice_at tw p target).r : ℚ) *
            (1 - ((spr.sampled_rgba inv p).a : ℚ) / 255)),
        rust_cast_u8 (((spr.sampled_rgba inv p).g : ℚ) *
            (((spr.sampled_rgba inv p).a : ℚ) / 255) +
          ((slice_at tw p target).g : ℚ) *
            (1 - ((spr.sampled_rgba inv p).a : ℚ) / 255)),
        rust_cast_u8 (((spr.sampled_rgba inv p).b : ℚ) *
            (((spr.sampled_rgba inv p).a : ℚ) / 255) +
          ((slice_at tw p target).b : ℚ) *
            (1 - ((spr.sampled_rgba inv p).a : ℚ) / 255)),
        rust_cast_u8 ((((spr.sampled_rgba inv p).a : ℚ) / 255 +
            ((slice_at tw p target).a : ℚ) / 255 *
              (1 - ((spr.sampled_rgba inv p).a : ℚ) / 255)) * 255)⟩ ∧
    (slice_at tw p ((spr.render_to cosF sinF target tw th).1)).r ≤ 255 ∧
    (slice_at tw p ((spr.render_to cosF sinF target tw th).1)).g ≤ 255 ∧
    (slice_at tw p ((spr.render_to cosF sinF target tw th).1)).b ≤ 255 ∧
    (slice_at tw p ((spr.render_to cosF sinF target tw th).1)).a ≤
      255 := by
  have ha1 : 0 < ((spr.sampled_rgba inv p).a : ℚ) / 255 :=
    div_pos (by exact_mod_cast h0) (by norm_num)
  have ha2 : ¬ (1 ≤ ((spr.sampled_rgba inv p).a : ℚ) / 255) := by
    rw [not_le, div_lt_one (by norm_num)]
    exact_mod_cast h255
  have hmain : slice_at tw p ((spr.render_to cosF sinF target tw th).1) =
      ⟨rust_cast_u8 (((spr.sampled_rgba inv p).r : ℚ) *
            (((spr.sampled_rgba inv p).a : ℚ) / 255) +
          ((slice_at tw p target).r : ℚ) *
            (1 - ((spr.sampled_rgba inv p).a : ℚ) / 255)),
        rust_cast_u8 (((spr.sampled_rgba inv p).g : ℚ) *
            (((spr.sampled_rgba inv p).a : ℚ) / 255) +
          ((slice_at tw p target).g : ℚ) *
            (1 - ((spr.sampled_rgba inv p).a : ℚ) / 255)),
        rust_cast_u8 (((spr.sampled_rgba inv p).b : ℚ) *
            (((spr.sampled_rgba inv p).a : ℚ) / 255) +
          ((slice_at tw p target).b : ℚ) *
            (1 - ((spr.sampled_rgba inv p).a : ℚ) / 255)),
        rust_cast_u8 ((((spr.sampled_rgba inv p).a : ℚ) / 255 +
            ((slice_at tw p target).a : ℚ) / 255 *
              (1 - ((spr.sampled_rgba inv p).a : ℚ) / 255)) * 255)⟩ := by
    rw [render_to_slice cosF sinF spr target tw th p inv hinv hp1 hp2
      hlen, if_pos hib]
    simp only [composite_rgba]
    rw [if_pos ha1, if_neg ha2]
  refine ⟨hmain, ?_, ?_, ?_, ?_⟩ <;> rw [hmain] <;>
    exact rust_cast_u8_le _

/-! ### Concrete instances for the render_to claims -/

theorem c4_alpha_extremes_witness :
    ((spr_solid.transform.matrix_with_size cos0 sin0
        (spr_solid.width : ℚ) (spr_solid.height : ℚ)).1.inverse =
      some Matrix3x3.identity) ∧
    slice_at 1 (0, 0) ((spr_solid.render_to cos0 sin0
        [10, 20, 30, 40] 1 1).1) = ⟨7, 8, 9, 255⟩ ∧
    slice_at 1 (0, 0) ((spr_clear.render_to cos0 sin0
        [10, 20, 30, 40] 1 1).1) = ⟨10, 20, 30, 40⟩ := by
  have hm1 : (spr_solid.transform.matrix_with_size cos0 sin0
      (spr_solid.width : ℚ) (spr_solid.height : ℚ)).1 =
      Matrix3x3.identity := by
    norm_num [spr_solid, sample_transform, Transform2D.new,
      Transform2D.set_anchor, Transform2D.invalidate_cache,
      Transform2D.matrix_with_size, Transform2D.matrix,
      Transform2D.computed_matrix, Matrix3x3.translation,
      Matrix3x3.rotation, Matrix3x3.scaling, Matrix3x3.multiply,
      Matrix3x3.identity, cos0, sin0, Vec2.zero, Vec2.one]
  have hinv1 : (spr_solid.transform.matrix_with_size cos0 sin0
      (spr_solid.width : ℚ) (spr_solid.height : ℚ)).1.inverse =
      some Matrix3x3.identity := by
    rw [hm1]
    norm_num [Matrix3x3.inverse, Matrix3x3.determinant,
      Matrix3x3.identity]
  have hm2 : (spr_clear.transform.matrix_with_size cos0 sin0
      (spr_clear.width : ℚ) (spr_clear.height : ℚ)).1 =
      Matrix3x3.identity := by
    norm_num [spr_clear, sample_transform, Transform2D.new,
      Transform2D.set_anchor, Transform2D.invalidate_cache,
      Transform2D.matrix_with_size, Transform2D.matrix,
      Transform2D.computed_matrix, Matrix3x3.translation,
      Matrix3x3.rotation, Matrix3x3.scaling, Matrix3x3.multiply,
      Matrix3x3.identity, cos0, sin0, Vec2.zero, Vec2.one]
  have hinv2 : (spr_clear.transform.matrix_with_size cos0 sin0
      (spr_clear.width : ℚ) (spr_clear.height : ℚ)).1.inverse =
      some Matrix3x3.identity := by
    rw [hm2]
    norm_num [Matrix3x3.inverse, Matrix3x3.determinant,
      Matrix3x3.identity]
  have hib1 : in_bounds spr_solid.width spr_solid.height
      (sample_point Matrix3x3.identity (0, 0)) := by
    norm_num [in_bounds, sample_point, Matrix3x3.transform_point,
      Matrix3x3.identity, spr_solid]
  have hib2 : in_bounds spr_clear.width spr_clear.height
      (sample_point Matrix3x3.identity (0, 0)) := by
    norm_num [in_bounds, sample_point, Matrix3x3.transform_point,
      Matrix3x3.identity, spr_clear]
  have ha1 : (spr_solid.sampled_rgba Matrix3x3.identity (0, 0)).a =
      255 := by
    norm_num [ImageSprite.sampled_rgba, sample_point,
      Matrix3x3.transform_point, Matrix3x3.identity,
      ImageSprite.get_pixel_rgba, spr_solid, byte_at]
  have ha2 : (spr_clear.sampled_rgba Matrix3x3.identity (0, 0)).a =
      0 := by
    norm_num [ImageSprite.sampled_rgba, sample_point,
      Matrix3x3.transform_point, Matrix3x3.identity,
      ImageSprite.get_pixel_rgba, spr_clear, byte_at]
  refine ⟨hinv1, ?_, ?_⟩
  · have h := (c4_alpha_extremes cos0 sin0 spr_solid [10, 20, 30, 40]
      1 1 (0, 0) Matrix3x3.identity hinv1 (by decide) (by decide)
      (by decide) hib1).2 ha1
    rw [h]
    norm_num [ImageSprite.sampled_rgba, sample_point,
      Matrix3x3.transform_point, Matrix3x3.identity,
      ImageSprite.get_pixel_rgba, spr_solid, byte_at]
  · have h := (c4_alpha_extremes cos0 sin0 spr_clear [10, 20, 30, 40]
      1 1 (0, 0) Matrix3x3.identity hinv2 (by decide) (by decide)
      (by decide) hib2).1 ha2
    rw [h]
    norm_num [slice_at, byte_at]

theorem spr_half_inverse :
    (spr_half.transform.matrix_with_size cos0 sin0
      (spr_half.width : ℚ) (spr_half.height : ℚ)).1.inverse =
      some Matrix3x3.identity := by
  have hm : (spr_half.transform.matrix_with_size cos0 sin0
      (spr_half.width : ℚ) (spr_half.height : ℚ)).1 =
      Matrix3x3.identity := by
    norm_num [spr_half, sample_transform, Transform2D.new,
      Transform2D.set_anchor, Transform2D.invalidate_cache,
      Transform2D.matrix_with_size, Transform2D.matrix,
      Transform2D.computed_matrix, Matrix3x3.translation,
      Matrix3x3.rotation, Matrix3x3.scaling, Matrix3x3.multiply,
      Matrix3x3.identity, cos0, sin0, Vec2.zero, Vec2.one]
  rw [hm]
  norm_num [Matrix3x3.inverse, Matrix3x3.determinant, Matrix3x3.identity]

theorem spr_half_in_bounds :
    in_bounds spr_half.width spr_half.height
      (sample_point Matrix3x3.identity (0, 0)) := by
  norm_num [in_bounds, sample_point, Matrix3x3.transform_point,
    Matrix3x3.identity, spr_half]

theorem spr_half_sampled :
    spr_half.sampled_rgba Matrix3x3.identity (0, 0) =
      ⟨100, 100, 100, 128⟩ := by
  norm_num [ImageSprite.sampled_rgba, sample_point,
    Matrix3x3.transform_point, Matrix3x3.identity,
    ImageSprite.get_pixel_rgba, spr_half, byte_at]

/-- Direct evaluation of the blend of spr_half over an opaque-ish
destination pixel 200,200,200,128: the stored bytes are the truncations
149 and 191. -/
theorem spr_half_blend_slice :
    slice_at 1 (0, 0) ((spr_half.render_to cos0 sin0
        [200, 200, 200, 128] 1 1).1) = ⟨149, 149, 149, 191⟩ := by
  rw [render_to_slice cos0 sin0 spr_half [200, 200, 200, 128] 1 1 (0, 0)
    Matrix3x3.identity spr_half_inverse (by decide) (by decide)
    (by decide), if_pos spr_half_in_bounds, spr_half_sampled]
  norm_num [composite_rgba, slice_at, byte_at, rust_cast_u8]
  decide

/-- C3 counterexample: on a concrete 1x1 blend (source alpha 128 over
destination alpha 128) the stored alpha byte is 191 while the rounding
formula of the claim gives 192, and the stored red byte 149 is not the
exact real blend value; so the destination bytes are truncations, not
the claimed rounded or exact values. -/
theorem c3_counterexample :
    (slice_at 1 (0, 0) ((spr_half.render_to cos0 sin0
        [200, 200, 200, 128] 1 1).1)).a = 191 ∧
    round (((128 : ℚ) / 255 + (128 : ℚ) / 255 *
        (1 - (128 : ℚ) / 255)) * 255) = 192 ∧
    (191 : ℕ) ≠ 192 ∧
    (slice_at 1 (0, 0) ((spr_half.render_to cos0 sin0
        [200, 200, 200, 128] 1 1).1)).r = 149 ∧
    ¬ ((149 : ℚ) = (100 : ℚ) * ((128 : ℚ) / 255) +
        (200 : ℚ) * (1 - (128 : ℚ) / 255)) := by
  refine ⟨?_, ?_, by decide, ?_, by norm_num⟩
  · rw [spr_half_blend_slice]
  · norm_num [round_eq]
  · rw [spr_half_blend_slice]

/-- C3 witness: the amended truncating blend instantiated on the same
concrete 1x1 pixel, giving bytes 149,149,149,191. -/
theorem c3_blend_truncation_witness :
    ((spr_half.transform.matrix_with_size cos0 sin0
        (spr_half.width : ℚ) (spr_half.height : ℚ)).1.inverse =
      some Matrix3x3.identity) ∧
    0 < (spr_half.sampled_rgba Matrix3x3.identity (0, 0)).a ∧
    (spr_half.sampled_rgba Matrix3x3.identity (0, 0)).a < 255 ∧
    slice_at 1 (0, 0) ((spr_half.render_to cos0 sin0
        [200, 200, 200, 128] 1 1).1) = ⟨149, 149, 149, 191⟩ := by
  have h0 : 0 < (spr_half.sampled_rgba Matrix3x3.identity (0, 0)).a := by
    rw [spr_half_sampled]
    decide
  have h255 : (spr_half.sampled_rgba Matrix3x3.identity (0, 0)).a <
      255 := by
    rw [spr_half_sampled]
    decide
  have h := (c3_blend_truncation cos0 sin0 spr_half [200, 200, 200, 128]
    1 1 (0, 0) Matrix3x3.identity spr_half_inverse (by decide)
    (by decide) (by decide) spr_half_in_bounds h0 h255).1
  refine ⟨spr_half_inverse, h0, h255, ?_⟩
  rw [h, spr_half_sampled]
  norm_num [slice_at, byte_at, rust_cast_u8]
  decide

/-- C7 witness: a sprite translated to (100,100) maps the whole 1x1
target out of its own bounds: the target buffer is unchanged. -/
theorem c7_boundary_policy_witness :
    ((spr_far.transform.matrix_with_size cos0 sin0 (spr_far.width : ℚ)
        (spr_far.height : ℚ)).1.inverse =
      some (Matrix3x3.translation (-100) (-100))) ∧
    ¬ in_bounds spr_far.width spr_far.height
      (sample_point (Matrix3x3.translation (-100) (-100)) (0, 0)) ∧
    slice_at 1 (0, 0) ((spr_far.render_to cos0 sin0 [10, 20, 30, 40]
        1 1).1) = slice_at 1 (0, 0) [10, 20, 30, 40] ∧
    (spr_far.render_to cos0 sin0 [10, 20, 30, 40] 1 1).1 =
      [10, 20, 30, 40] := by
  have hm : (spr_far.transform.matrix_with_size cos0 sin0
      (spr_far.width : ℚ) (spr_far.height : ℚ)).1 =
      Matrix3x3.translation 100 100 := by
    norm_num [spr_far, Transform2D.new, Transform2D.set_anchor,
      Transform2D.set_position, Transform2D.invalidate_cache,
      Transform2D.matrix_with_size, Transform2D.matrix,
      Transform2D.computed_matrix, Matrix3x3.translation,
      Matrix3x3.rotation, Matrix3x3.scaling, Matrix3x3.multiply,
      cos0, sin0, Vec2.zero, Vec2.one]
  have hinv : (spr_far.transform.matrix_with_size cos0 sin0
      (spr_far.width : ℚ) (spr_far.height : ℚ)).1.inverse =
      some (Matrix3x3.translation (-100) (-100)) := by
    rw [hm]
    norm_num [Matrix3x3.inverse, Matrix3x3.determinant,
      Matrix3x3.translation]
  have hoob : ¬ in_bounds spr_far.width spr_far.height
      (sample_point (Matrix3x3.translation (-100) (-100)) (0, 0)) := by
    norm_num [in_bounds, sample_point, Matrix3x3.transform_point,
      Matrix3x3.translation, spr_far]
  have hall : ∀ q ∈ pixel_list 1 1, ¬ in_bounds spr_far.width
      spr_far.height
      (sample_point (Matrix3x3.translation (-100) (-100)) q) := by
    intro q hq
    obtain ⟨a, b⟩ := q
    have hab := mem_pixel_list.mp hq
    simp only at hab
    have ha : a = 0 := by omega
    have hb : b = 0 := by omega
    subst ha
    subst hb
    exact hoob
  have h := c7_boundary_policy cos0 sin0 spr_far [10, 20, 30, 40] 1 1
    (0, 0) (Matrix3x3.translation (-100) (-100)) hinv (by decide)
    (by decide) (by decide)
  exact ⟨hinv, hoob, h.1 hoob, h.2.2 hall⟩
